import Mathlib

/-!
# dh2ecr: a shallow embedding of `cmd/root.go`

The program copies images from Docker Hub to ECR.  It is a straight-line
sequence of external actions (AWS SDK calls, `docker` subprocesses, one file
read) interleaved with log lines, where every `log.Fatal` ends the process.

The embedding makes the external world an explicit parameter (`World`), records
every external action in a trace and every log line in a log, and represents
`log.Fatal*` as an early exit.  Log lines are recorded without the date and
time the `log` package puts in front of them.  Go strings are modelled by Lean
strings; the only separator the program splits on is the one-byte string ":",
and a byte string has that byte exactly where the text has that character.
-/

namespace Dh2ecr

/-! ## External actions and the world -/

/-- An external action of the program, in the order the process issues them. -/
inductive Event where
  /-- Go `awsconfig.LoadDefaultConfig(ctx, WithRegion(region))` followed by `ecr.NewFromConfig`. -/
  | loadDefaultConfig (region : String)
  /-- Go `client.GetAuthorizationToken`. -/
  | getAuthorizationToken
  /-- Go `ioutil.ReadFile(path)`. -/
  | readFile (path : String)
  /-- Go `client.CreateRepository` with the given repository name. -/
  | createRepository (name : String)
  /-- Go `exec.Command("docker", args...).Run()`. -/
  | docker (args : List String)
  deriving DecidableEq, Repr

/-- One element of `GetAuthorizationTokenOutput.AuthorizationData`; both fields
are `*string` in the SDK, so either may be nil. -/
structure AuthorizationData where
  authorizationToken : Option String
  proxyEndpoint : Option String
  deriving DecidableEq, Repr

/-- The decoded `config` struct: `RegistryMap`, listed in the order in which the
`range` loop of the root command visits its entries. -/
structure Config where
  registryMap : List (String × List String)
  deriving DecidableEq, Repr

/-- Everything outside the process.  An error is represented by its text
(`err.Error()`); `none` is a nil error.  The answers of the calls that can be
repeated (`CreateRepository`, `docker`) may depend on the actions issued so far. -/
structure World where
  /-- Result of `awsconfig.LoadDefaultConfig` for a region. -/
  loadDefaultConfig : String → Option String
  /-- Result of `client.GetAuthorizationToken`. -/
  getAuthorizationToken : Except String (List AuthorizationData)
  /-- Library function `base64.StdEncoding.DecodeString`. -/
  base64Decode : String → Except String String
  /-- Result of `ioutil.ReadFile` for a path. -/
  readFile : String → Except String String
  /-- Library function `yaml.Unmarshal` into a `config`. -/
  yamlUnmarshal : String → Except String Config
  /-- Library formatting of a `config` value with `%v`. -/
  sprintConfig : Config → String
  /-- Result of `client.CreateRepository`, given the actions issued before it. -/
  createRepository : List Event → String → Option String
  /-- Result of running `docker args...`, given the actions issued before it. -/
  runDocker : List Event → List String → Option String

/-- The package-level flag variables set by cobra before `Run` is called. -/
structure Flags where
  configFile : String
  awsRegion : String
  awsAccountID : String
  dryRun : Bool
  deriving DecidableEq, Repr

/-! ## Process state and the program monad -/

/-- What an observer of the process has seen so far: the external actions and
the lines written through the `log` package, both oldest first. -/
structure St where
  trace : List Event
  log : List String
  deriving DecidableEq, Repr

/-- The way a piece of the program ends. -/
inductive Res (α : Type) where
  /-- Normal return with a value. -/
  | ok (a : α) (s : St)
  /-- A call of `log.Fatal`/`log.Fatalf`: the message is logged and the process exits with status 1. -/
  | fatal (msg : String) (s : St)
  /-- A Go run-time error (index out of range, nil dereference). -/
  | crash (s : St)
  deriving DecidableEq, Repr

/-- The state in which a piece of the program ended. -/
def Res.state {α : Type} : Res α → St
  | .ok _ s => s
  | .fatal _ s => s
  | .crash s => s

/-- Whether the piece returned normally. -/
def Res.returned {α : Type} : Res α → Bool
  | .ok _ _ => true
  | _ => false

/-- A piece of the program. -/
def Prog (α : Type) : Type := St → Res α

/-- Sequencing: what follows runs only if the first part returned. -/
def Prog.bind {α β : Type} (m : Prog α) (k : α → Prog β) : Prog β := fun s =>
  match m s with
  | .ok a s1 => k a s1
  | .fatal msg s1 => .fatal msg s1
  | .crash s1 => .crash s1

instance : Monad Prog where
  pure a := fun s => .ok a s
  bind := Prog.bind

/-- Go `log.Print*`: one line on the log. -/
def logPrint (line : String) : Prog Unit := fun s =>
  .ok () { s with log := s.log ++ [line] }

/-- Go `log.Fatal*`: one line on the log, then `os.Exit(1)`. -/
def logFatal {α : Type} (msg : String) : Prog α := fun s =>
  .fatal msg { s with log := s.log ++ [msg] }

/-- A Go run-time error. -/
def goCrash {α : Type} : Prog α := fun s => .crash s

/-- Issue an external action whose answer is `answer` applied to the actions issued before it. -/
def call {α : Type} (e : Event) (answer : List Event → α) : Prog α := fun s =>
  .ok (answer s.trace) { s with trace := s.trace ++ [e] }

/-! ## Go library functions -/

/-- Split a list of characters at every occurrence of `sep`. -/
def splitChars (sep : Char) : List Char → List (List Char)
  | [] => [[]]
  | c :: cs =>
    if c = sep then [] :: splitChars sep cs
    else
      match splitChars sep cs with
      | [] => [[c]]
      | p :: ps => (c :: p) :: ps

/-- Go `strings.Split(s, sep)` for a separator of one character: the substrings
between the separators, one more than there are separators. -/
def stringsSplit (s : String) (sep : Char) : List String :=
  (splitChars sep s.data).map String.mk

/-! ## The program -/

/-- Go `checkVars`. -/
def checkVars (f : Flags) : Prog Unit := do
  if f.awsRegion = "" then
    logFatal "aws region is not set"
  if f.awsAccountID = "" then
    logFatal "aws account id is not set"
  if f.configFile = "" then
    logFatal "config file is not set"

/-- Go `getEcrClient`.  The client handle it stores carries nothing the program
inspects; calls through it are the `World` fields. -/
def getEcrClient (w : World) (f : Flags) : Prog Unit := do
  let err ← call (.loadDefaultConfig f.awsRegion) (fun _ => w.loadDefaultConfig f.awsRegion)
  match err with
  | some e => logFatal ("unable to load SDK config, " ++ e)
  | none => pure ()

/-- Go `loginToEcr`. -/
def loginToEcr (w : World) : Prog Unit := do
  let res ← call .getAuthorizationToken (fun _ => w.getAuthorizationToken)
  match res with
  | .error e => logFatal ("unable to get auth token, " ++ e)
  | .ok authorizationData =>
    -- `*authToken.AuthorizationData[0].AuthorizationToken`
    match authorizationData with
    | [] => goCrash
    | first :: _ =>
      match first.authorizationToken with
      | none => goCrash
      | some encoded =>
        match w.base64Decode encoded with
        | .error e => logFatal ("unable to decode auth token, " ++ e)
        | .ok token =>
          let endpoint := first.proxyEndpoint
          if token.length = 0 then
            logFatal "empty auth token"
          let tokenSlice := stringsSplit token ':'
          match tokenSlice with
          | [user, password] =>
            -- `*endpoint`
            match endpoint with
            | none => goCrash
            | some ep =>
              let err ← call (.docker ["login", "-u", user, "-p", password, ep])
                (fun h => w.runDocker h ["login", "-u", user, "-p", password, ep])
              match err with
              | some e => logFatal ("unable to login to ecr, " ++ e)
              | none => pure ()
          | _ => logFatal "invalid auth token"

/-- Go `setConfig`. -/
def setConfig (w : World) (f : Flags) : Prog Config := do
  logPrint ("reading config " ++ f.configFile)
  let b ← call (.readFile f.configFile) (fun _ => w.readFile f.configFile)
  match b with
  | .error e => logFatal ("unable to read config file, " ++ e)
  | .ok bytes =>
    match w.yamlUnmarshal bytes with
    | .error e => logFatal ("unable to unmarshal config file, " ++ e)
    | .ok cfg =>
      logPrint ("config: " ++ w.sprintConfig cfg)
      pure cfg

/-- The body of the `for _, image := range imageTags` loop of `pullAndPush`. -/
def processImage (w : World) (f : Flags) (dry : Bool) (image : String) : Prog Unit := do
  let imageSlice := stringsSplit image ':'
  if imageSlice.length ≠ 2 then
    logFatal ("invalid image tag " ++ image)
  let tag := f.awsAccountID ++ ".dkr.ecr." ++ f.awsRegion ++ ".amazonaws.com/" ++ image
  logPrint ("pulling image " ++ image ++ " from docker hub")
  if !dry then
    let err ← call (.docker ["pull", image]) (fun h => w.runDocker h ["pull", image])
    match err with
    | some e => logFatal ("unable to pull image " ++ image ++ ", " ++ e)
    | none => pure ()
  logPrint ("tagging image " ++ image ++ " with tag " ++ tag)
  if !dry then
    let err ← call (.docker ["tag", image, tag]) (fun h => w.runDocker h ["tag", image, tag])
    match err with
    | some e => logFatal ("unable to tag image " ++ image ++ ", " ++ e)
    | none => pure ()
  logPrint ("pushing image " ++ tag ++ " to ecr")
  if !dry then
    let err ← call (.docker ["push", tag]) (fun h => w.runDocker h ["push", tag])
    match err with
    | some e => logFatal ("unable to push image " ++ tag ++ ", " ++ e)
    | none => pure ()

/-- The `for _, image := range imageTags` loop of `pullAndPush`. -/
def processImages (w : World) (f : Flags) (dry : Bool) : List String → Prog Unit
  | [] => pure ()
  | image :: rest => do
    processImage w f dry image
    processImages w f dry rest

/-- The repository creation at the head of `pullAndPush`. -/
def ensureRepository (w : World) (registryName : String) (dry : Bool) : Prog Unit := do
  if !dry then
    let err ← call (.createRepository registryName) (fun h => w.createRepository h registryName)
    match err with
    | some e =>
      if e ≠ "RepositoryAlreadyExistsException" then
        logFatal ("unable to create repository, " ++ e)
      logPrint ("repository " ++ registryName ++ " already exists")
    | none => pure ()

/-- Go `pullAndPush`. -/
def pullAndPush (w : World) (f : Flags) (registryName : String) (imageTags : List String)
    (dry : Bool) : Prog Unit := do
  ensureRepository w registryName dry
  processImages w f dry imageTags

/-- The `for registryName, imageTags := range cfg.RegistryMap` loop of the root command. -/
def forRegistryMap (w : World) (f : Flags) : List (String × List String) → Prog Unit
  | [] => pure ()
  | (registryName, imageTags) :: rest => do
    pullAndPush w f registryName imageTags f.dryRun
    forRegistryMap w f rest

/-- Go `rootCmd.Run`. -/
def rootRun (w : World) (f : Flags) : Prog Unit := do
  checkVars f
  if !f.dryRun then
    getEcrClient w f
    loginToEcr w
  let cfg ← setConfig w f
  forRegistryMap w f cfg.registryMap

/-- The state of a freshly started process. -/
def St.init : St := { trace := [], log := [] }

/-! ## Vocabulary of the properties -/

/-- The three `docker` commands of one image, in program order, with the
destination address written out. -/
def imageActions (f : Flags) (image : String) : List Event :=
  [ .docker ["pull", image],
    .docker ["tag", image, f.awsAccountID ++ ".dkr.ecr." ++ f.awsRegion ++ ".amazonaws.com/" ++ image],
    .docker ["push", f.awsAccountID ++ ".dkr.ecr." ++ f.awsRegion ++ ".amazonaws.com/" ++ image] ]

/-- The `docker` commands of a list of images: those of each image, in list order. -/
def planActions (f : Flags) : List String → List Event
  | [] => []
  | image :: rest => imageActions f image ++ planActions f rest

/-- The log line that announces a `docker pull`, `tag` or `push` command. -/
def describe : Event → String
  | .docker ["pull", image] => "pulling image " ++ image ++ " from docker hub"
  | .docker ["tag", image, tag] => "tagging image " ++ image ++ " with tag " ++ tag
  | .docker ["push", tag] => "pushing image " ++ tag ++ " to ecr"
  | _ => ""

/-- Whether the world makes an action fail when it is issued after `hist`:
an error from the SDK or the file system, a non-zero exit of `docker`; for
`CreateRepository`, an error other than the one `pullAndPush` tolerates. -/
def failed (w : World) (hist : List Event) : Event → Bool
  | .loadDefaultConfig region => (w.loadDefaultConfig region).isSome
  | .getAuthorizationToken =>
    match w.getAuthorizationToken with
    | .error _ => true
    | .ok _ => false
  | .readFile path =>
    match w.readFile path with
    | .error _ => true
    | .ok _ => false
  | .createRepository name =>
    match w.createRepository hist name with
    | some e => e != "RepositoryAlreadyExistsException"
    | none => false
  | .docker args => (w.runDocker hist args).isSome

/-- Fail-fast reading of a run that issued the actions `t` after `hist`:
an action that failed is the last one issued, and the run was aborted. -/
def FailFast (w : World) (aborted : Bool) : List Event → List Event → Prop
  | _, [] => True
  | hist, e :: rest =>
    (failed w hist e = true → rest = [] ∧ aborted = true) ∧ FailFast w aborted (hist ++ [e]) rest

/-- A world in which every `CreateRepository` call and every `docker` command succeeds. -/
def World.allSucceed (w : World) : Prop :=
  (∀ hist name, w.createRepository hist name = none) ∧ (∀ hist args, w.runDocker hist args = none)

/-! ## A concrete run

The happy path of a single image: flags `-c plan.yaml -r us-east-1 -a 111122223333`
and the plan `{registryMap: {nginx: ["nginx:1.25"]}}`, in a world where every
call succeeds. -/

/-- The flags `-c plan.yaml -r us-east-1 -a 111122223333`. -/
def exampleFlags : Flags :=
  { configFile := "plan.yaml", awsRegion := "us-east-1", awsAccountID := "111122223333",
    dryRun := false }

/-- A world in which every call succeeds; the authorization token decodes to
`AWS:password` and the plan mirrors `nginx:1.25` into the repository `nginx`. -/
def exampleWorld : World where
  loadDefaultConfig := fun _ => none
  getAuthorizationToken :=
    .ok [{ authorizationToken := some "QVdTOnBhc3N3b3Jk",
           proxyEndpoint := some "https://111122223333.dkr.ecr.us-east-1.amazonaws.com" }]
  base64Decode := fun _ => .ok "AWS:password"
  readFile := fun _ => .ok "registryMap: \x7bnginx: [\"nginx:1.25\"]\x7d"
  yamlUnmarshal := fun _ => .ok { registryMap := [("nginx", ["nginx:1.25"])] }
  sprintConfig := fun _ => "\x7bmap[nginx:[nginx:1.25]]\x7d"
  createRepository := fun _ _ => none
  runDocker := fun _ _ => none

/-! ## Splitting strings -/

theorem splitChars_ne_nil (sep : Char) (l : List Char) : splitChars sep l ≠ [] := by
  induction l with
  | nil => simp [splitChars]
  | cons c cs ih =>
    unfold splitChars
    split
    · simp
    · split <;> simp

/-- There is one more piece than there are separators. -/
theorem splitChars_length (sep : Char) (l : List Char) :
    (splitChars sep l).length = l.count sep + 1 := by
  induction l with
  | nil => simp [splitChars]
  | cons c cs ih =>
    unfold splitChars
    by_cases h : c = sep
    · subst h
      simp [ih]
    · have hne : ¬ (c == sep) = true := by simpa using h
      rw [if_neg h, List.count_cons, if_neg hne]
      cases hs : splitChars sep cs with
      | nil => exact absurd hs (splitChars_ne_nil sep cs)
      | cons p ps => rw [hs] at ih; simpa using ih

theorem splitChars_of_count_zero (sep : Char) (l : List Char) (h : l.count sep = 0) :
    splitChars sep l = [l] := by
  induction l with
  | nil => simp [splitChars]
  | cons c cs ih =>
    have hc : c ≠ sep := by
      intro hc
      subst hc
      simp at h
    have hne : ¬ (c == sep) = true := by simpa using hc
    rw [List.count_cons, if_neg hne] at h
    unfold splitChars
    rw [if_neg hc, ih (by simpa using h)]

/-- A list with one separator splits into the part before it and the part after it. -/
theorem splitChars_of_count_one (sep : Char) (l : List Char) (h : l.count sep = 1) :
    ∃ u p, splitChars sep l = [u, p] ∧ l = u ++ sep :: p ∧ u.count sep = 0 ∧ p.count sep = 0 := by
  induction l with
  | nil => simp at h
  | cons c cs ih =>
    by_cases hc : c = sep
    · subst hc
      have h0 : cs.count c = 0 := by simpa using h
      refine ⟨[], cs, ?_, by simp, by simp, h0⟩
      unfold splitChars
      rw [if_pos rfl, splitChars_of_count_zero c cs h0]
    · have hne : ¬ (c == sep) = true := by simpa using hc
      rw [List.count_cons, if_neg hne] at h
      obtain ⟨u, p, hs, hl, hu, hp⟩ := ih (by simpa using h)
      refine ⟨c :: u, p, ?_, by simp [hl], ?_, hp⟩
      · unfold splitChars
        rw [if_neg hc, hs]
      · rw [List.count_cons, if_neg hne]
        simpa using hu

theorem stringsSplit_length (s : String) (sep : Char) :
    (stringsSplit s sep).length = s.data.count sep + 1 := by
  simp [stringsSplit, splitChars_length]

theorem stringsSplit_of_count_one (s : String) (sep : Char) (h : s.data.count sep = 1) :
    ∃ u p : String, stringsSplit s sep = [u, p] ∧ s = u ++ String.singleton sep ++ p
      ∧ u.data.count sep = 0 ∧ p.data.count sep = 0 := by
  obtain ⟨u, p, hs, hl, hu, hp⟩ := splitChars_of_count_one sep s.data h
  refine ⟨⟨u⟩, ⟨p⟩, by simp [stringsSplit, hs], ?_, hu, hp⟩
  apply String.ext
  simp [hl, String.singleton]

/-! ## The program monad and one image -/

@[simp] theorem pure_run {α : Type} (a : α) (s : St) : (pure a : Prog α) s = .ok a s := rfl

@[simp] theorem bind_run {α β : Type} (m : Prog α) (k : α → Prog β) (s : St) :
    (m >>= k) s = match m s with
      | .ok a s1 => k a s1
      | .fatal msg s1 => .fatal msg s1
      | .crash s1 => .crash s1 := rfl

/-- A reference without exactly one colon is refused before anything is logged or run. -/
theorem processImage_bad (w : World) (f : Flags) (dry : Bool) (image : String) (s : St)
    (h : image.data.count ':' ≠ 1) :
    processImage w f dry image s
      = .fatal ("invalid image tag " ++ image)
          { s with log := s.log ++ ["invalid image tag " ++ image] } := by
  simp [processImage, stringsSplit_length, h, logFatal]

/-- In dry mode an accepted reference only produces its three log lines. -/
theorem processImage_dry (w : World) (f : Flags) (image : String) (s : St)
    (h : image.data.count ':' = 1) :
    processImage w f true image s
      = .ok () { s with log := s.log ++ (imageActions f image).map describe } := by
  simp [processImage, stringsSplit_length, h, logPrint, imageActions, describe]

/-- In live mode an accepted reference stops at the first `docker` command that fails. -/
theorem processImage_live (w : World) (f : Flags) (image : String) (s : St)
    (h : image.data.count ':' = 1) :
    (∃ e, w.runDocker s.trace ["pull", image] = some e ∧
        processImage w f false image s
          = .fatal ("unable to pull image " ++ image ++ ", " ++ e)
              { trace := s.trace ++ (imageActions f image).take 1,
                log := s.log ++ ((imageActions f image).take 1).map describe
                  ++ ["unable to pull image " ++ image ++ ", " ++ e] })
    ∨ (∃ e, w.runDocker s.trace ["pull", image] = none ∧
        w.runDocker (s.trace ++ (imageActions f image).take 1)
          ["tag", image, f.awsAccountID ++ ".dkr.ecr." ++ f.awsRegion ++ ".amazonaws.com/" ++ image] = some e ∧
        processImage w f false image s
          = .fatal ("unable to tag image " ++ image ++ ", " ++ e)
              { trace := s.trace ++ (imageActions f image).take 2,
                log := s.log ++ ((imageActions f image).take 2).map describe
                  ++ ["unable to tag image " ++ image ++ ", " ++ e] })
    ∨ (∃ e, w.runDocker s.trace ["pull", image] = none ∧
        w.runDocker (s.trace ++ (imageActions f image).take 1)
          ["tag", image, f.awsAccountID ++ ".dkr.ecr." ++ f.awsRegion ++ ".amazonaws.com/" ++ image] = none ∧
        w.runDocker (s.trace ++ (imageActions f image).take 2)
          ["push", f.awsAccountID ++ ".dkr.ecr." ++ f.awsRegion ++ ".amazonaws.com/" ++ image] = some e ∧
        processImage w f false image s
          = .fatal ("unable to push image "
                ++ (f.awsAccountID ++ ".dkr.ecr." ++ f.awsRegion ++ ".amazonaws.com/" ++ image) ++ ", " ++ e)
              { trace := s.trace ++ imageActions f image,
                log := s.log ++ (imageActions f image).map describe
                  ++ ["unable to push image "
                ++ (f.awsAccountID ++ ".dkr.ecr." ++ f.awsRegion ++ ".amazonaws.com/" ++ image) ++ ", " ++ e] })
    ∨ (w.runDocker s.trace ["pull", image] = none ∧
        w.runDocker (s.trace ++ (imageActions f image).take 1)
          ["tag", image, f.awsAccountID ++ ".dkr.ecr." ++ f.awsRegion ++ ".amazonaws.com/" ++ image] = none ∧
        w.runDocker (s.trace ++ (imageActions f image).take 2)
          ["push", f.awsAccountID ++ ".dkr.ecr." ++ f.awsRegion ++ ".amazonaws.com/" ++ image] = none ∧
        processImage w f false image s
          = .ok () { trace := s.trace ++ imageActions f image,
                     log := s.log ++ (imageActions f image).map describe }) := by
  cases h1 : w.runDocker s.trace ["pull", image] with
  | some e =>
    left
    exact ⟨e, rfl, by simp [processImage, stringsSplit_length, h, logPrint, logFatal, call, h1, imageActions, describe]⟩
  | none =>
    right
    cases h2 : w.runDocker (s.trace ++ (imageActions f image).take 1)
          ["tag", image, f.awsAccountID ++ ".dkr.ecr." ++ f.awsRegion ++ ".amazonaws.com/" ++ image] with
    | some e =>
      left
      simp [imageActions] at h2
      exact ⟨e, rfl, rfl, by simp [processImage, stringsSplit_length, h, logPrint, logFatal, call, h1, h2, imageActions, describe]⟩
    | none =>
      right
      cases h3 : w.runDocker (s.trace ++ (imageActions f image).take 2)
          ["push", f.awsAccountID ++ ".dkr.ecr." ++ f.awsRegion ++ ".amazonaws.com/" ++ image] with
      | some e =>
        left
        simp [imageActions] at h2 h3
        exact ⟨e, rfl, rfl, rfl, by simp [processImage, stringsSplit_length, h, logPrint, logFatal, call, h1, h2, h3, imageActions, describe]⟩
      | none =>
        right
        simp [imageActions] at h2 h3
        exact ⟨rfl, rfl, rfl, by simp [processImage, stringsSplit_length, h, logPrint, logFatal, call, h1, h2, h3, imageActions, describe]⟩

/-! ## The image loop -/

theorem processImages_cons (w : World) (f : Flags) (dry : Bool) (image : String)
    (rest : List String) (s : St) :
    processImages w f dry (image :: rest) s =
      match processImage w f dry image s with
      | .ok _ s1 => processImages w f dry rest s1
      | .fatal msg s1 => .fatal msg s1
      | .crash s1 => .crash s1 := by
  simp only [processImages, bind_run]
  cases processImage w f dry image s <;> rfl

/-- The fail-fast reading, position by position. -/
theorem failFast_split (w : World) (aborted : Bool) :
    ∀ (t hist : List Event), FailFast w aborted hist t →
      ∀ pre e post, t = pre ++ e :: post → failed w (hist ++ pre) e = true →
        post = [] ∧ aborted = true := by
  intro t
  induction t with
  | nil => intro hist _ pre e post h; simp at h
  | cons a t ih =>
    intro hist hff pre e post h hfail
    obtain ⟨h1, h2⟩ := hff
    cases pre with
    | nil =>
      simp at h
      obtain ⟨rfl, rfl⟩ := h
      exact h1 (by simpa using hfail)
    | cons b pre =>
      simp at h
      obtain ⟨rfl, rfl⟩ := h
      exact ih (hist ++ [a]) h2 pre e post rfl (by simpa using hfail)

/-- What the image loop does, in any world and either mode. -/
theorem processImages_spec (w : World) (f : Flags) (dry : Bool) :
    ∀ (images : List String) (s : St), ∃ t rest,
      (processImages w f dry images s).state.trace = s.trace ++ t
      ∧ t ++ rest = planActions f images
      ∧ (dry = true → t = [])
      ∧ (∀ e ∈ t, ∃ ref ∈ images, ref.data.count ':' = 1 ∧ e ∈ imageActions f ref)
      ∧ FailFast w (!(processImages w f dry images s).returned) s.trace t
      ∧ ((∃ i ∈ images, i.data.count ':' ≠ 1) →
          (processImages w f dry images s).returned = false) := by
  intro images
  induction images with
  | nil =>
    intro s
    exact ⟨[], [], by simp [processImages, Res.state], by simp [planActions], by simp, by simp,
      by simp [FailFast], by simp⟩
  | cons image rest ih =>
    intro s
    rw [processImages_cons]
    by_cases hwf : image.data.count ':' = 1
    · cases dry with
      | true =>
        rw [processImage_dry w f image s hwf]
        obtain ⟨t, r, h1, _, h3, _, _, h6⟩ := ih { s with log := s.log ++ (imageActions f image).map describe }
        have ht : t = [] := h3 rfl
        subst ht
        refine ⟨[], planActions f (image :: rest), by simpa using h1, by simp, by simp, by simp,
          by simp [FailFast], ?_⟩
        rintro ⟨i, hi, hbad⟩
        simp only [List.mem_cons] at hi
        rcases hi with rfl | hi
        · exact absurd hwf hbad
        · exact h6 ⟨i, hi, hbad⟩
      | false =>
        rcases processImage_live w f image s hwf with
          ⟨e, h1, hp⟩ | ⟨e, h1, h2, hp⟩ | ⟨e, h1, h2, h3, hp⟩ | ⟨h1, h2, h3, hp⟩
        · rw [hp]
          refine ⟨(imageActions f image).take 1, (imageActions f image).drop 1 ++ planActions f rest,
            by simp [Res.state], by simp [planActions, imageActions], by simp, ?_, ?_, by simp [Res.returned]⟩
          · intro e he
            exact ⟨image, by simp, hwf, List.mem_of_mem_take he⟩
          · simp [imageActions, FailFast, Res.returned]
        · rw [hp]
          refine ⟨(imageActions f image).take 2, (imageActions f image).drop 2 ++ planActions f rest,
            by simp [Res.state], by simp [planActions, imageActions], by simp, ?_, ?_, by simp [Res.returned]⟩
          · intro e he
            exact ⟨image, by simp, hwf, List.mem_of_mem_take he⟩
          · simp [imageActions, FailFast, Res.returned, failed, h1]
        · rw [hp]
          refine ⟨imageActions f image, planActions f rest,
            by simp [Res.state], by simp [planActions], by simp, ?_, ?_, by simp [Res.returned]⟩
          · intro e he
            exact ⟨image, by simp, hwf, he⟩
          · simp [imageActions] at h2
            simp [imageActions, FailFast, Res.returned, failed, h1, h2]
        · rw [hp]
          obtain ⟨t, r, i1, i2, _, i4, i5, i6⟩ := ih ⟨s.trace ++ imageActions f image, s.log ++ (imageActions f image).map describe⟩
          refine ⟨imageActions f image ++ t, r, by simpa using i1, by simp [planActions, i2],
            by simp, ?_, ?_, ?_⟩
          · intro e he
            rcases List.mem_append.1 he with he | he
            · exact ⟨image, by simp, hwf, he⟩
            · obtain ⟨ref, hr, hc, hm⟩ := i4 e he
              exact ⟨ref, by simp [hr], hc, hm⟩
          · simp [imageActions] at h2 h3 i5
            simp [imageActions, FailFast, failed, h1, h2, h3]
            simpa using i5
          · rintro ⟨i, hi, hbad⟩
            simp only [List.mem_cons] at hi
            rcases hi with rfl | hi
            · exact absurd hwf hbad
            · exact i6 ⟨i, hi, hbad⟩
    · rw [processImage_bad w f dry image s hwf]
      refine ⟨[], planActions f (image :: rest), by simp [Res.state], by simp, by simp, by simp,
        by simp [FailFast], by simp [Res.returned]⟩

/-- The loop over a concatenation is the loop over the first part, then over the second. -/
theorem processImages_append (w : World) (f : Flags) (dry : Bool) (pre rest : List String) :
    ∀ s : St, processImages w f dry (pre ++ rest) s =
      match processImages w f dry pre s with
      | .ok _ s1 => processImages w f dry rest s1
      | .fatal msg s1 => .fatal msg s1
      | .crash s1 => .crash s1 := by
  induction pre with
  | nil => intro s; simp [processImages]
  | cons image pre ih =>
    intro s
    rw [List.cons_append, processImages_cons, processImages_cons]
    cases processImage w f dry image s with
    | ok a s1 => simpa using ih s1
    | fatal msg s1 => rfl
    | crash s1 => rfl

theorem processImages_dry_ok (w : World) (f : Flags) :
    ∀ (images : List String) (s : St), (∀ i ∈ images, i.data.count ':' = 1) →
      processImages w f true images s
        = .ok () ⟨s.trace, s.log ++ (planActions f images).map describe⟩ := by
  intro images
  induction images with
  | nil => intro s _; simp [processImages, planActions]
  | cons image rest ih =>
    intro s h
    rw [processImages_cons, processImage_dry w f image s (h image (by simp))]
    simp only
    rw [ih _ (fun i hi => h i (by simp [hi]))]
    simp [planActions]

theorem processImages_live_ok (w : World) (f : Flags) (hw : w.allSucceed) :
    ∀ (images : List String) (s : St), (∀ i ∈ images, i.data.count ':' = 1) →
      processImages w f false images s
        = .ok () ⟨s.trace ++ planActions f images, s.log ++ (planActions f images).map describe⟩ := by
  intro images
  induction images with
  | nil => intro s _; simp [processImages, planActions]
  | cons image rest ih =>
    intro s h
    rw [processImages_cons]
    rcases processImage_live w f image s (h image (by simp)) with
      ⟨e, h1, _⟩ | ⟨e, _, h2, _⟩ | ⟨e, _, _, h3, _⟩ | ⟨_, _, _, hp⟩
    · simp [hw.2] at h1
    · simp [hw.2] at h2
    · simp [hw.2] at h3
    · rw [hp]
      simp only
      rw [ih _ (fun i hi => h i (by simp [hi]))]
      simp [planActions]

/-- When every call succeeds, the live and the dry loop log the same lines. -/
theorem processImages_modes (w : World) (f : Flags) (hw : w.allSucceed) :
    ∀ (images : List String) (tr1 tr2 : List Event) (lg : List String), ∃ issued tail,
      (processImages w f false images ⟨tr1, lg⟩).state
          = ⟨tr1 ++ issued, lg ++ issued.map describe ++ tail⟩
      ∧ (processImages w f true images ⟨tr2, lg⟩).state
          = ⟨tr2, lg ++ issued.map describe ++ tail⟩
      ∧ (processImages w f false images ⟨tr1, lg⟩).returned
          = (processImages w f true images ⟨tr2, lg⟩).returned
      ∧ (tail = [] ∨ ∃ image ∈ images, tail = ["invalid image tag " ++ image])
      ∧ (∀ e ∈ issued, ∃ ref ∈ images, e ∈ imageActions f ref) := by
  intro images
  induction images with
  | nil =>
    intro tr1 tr2 lg
    exact ⟨[], [], by simp [processImages, Res.state], by simp [processImages, Res.state],
      by simp [processImages, Res.returned], by simp, by simp⟩
  | cons image rest ih =>
    intro tr1 tr2 lg
    rw [processImages_cons, processImages_cons]
    by_cases hwf : image.data.count ':' = 1
    · rw [processImage_dry w f image _ hwf]
      rcases processImage_live w f image ⟨tr1, lg⟩ hwf with
        ⟨e, h1, _⟩ | ⟨e, _, h2, _⟩ | ⟨e, _, _, h3, _⟩ | ⟨_, _, _, hp⟩
      · simp [hw.2] at h1
      · simp [hw.2] at h2
      · simp [hw.2] at h3
      · rw [hp]
        obtain ⟨issued, tail, i1, i2, i3, i4, i5⟩ :=
          ih (tr1 ++ imageActions f image) tr2 (lg ++ (imageActions f image).map describe)
        refine ⟨imageActions f image ++ issued, tail, by simpa using i1, by simpa using i2, i3, ?_, ?_⟩
        · rcases i4 with h | ⟨im, hm, h⟩
          · exact Or.inl h
          · exact Or.inr ⟨im, by simp [hm], h⟩
        · intro e he
          rcases List.mem_append.1 he with he | he
          · exact ⟨image, by simp, he⟩
          · obtain ⟨ref, hr, hm⟩ := i5 e he
            exact ⟨ref, by simp [hr], hm⟩
    · rw [processImage_bad w f false image _ hwf, processImage_bad w f true image _ hwf]
      exact ⟨[], ["invalid image tag " ++ image], by simp [Res.state], by simp [Res.state],
        by simp [Res.returned], Or.inr ⟨image, by simp, rfl⟩, by simp⟩

/-! ## One repository -/

theorem planActions_eq_flatMap (f : Flags) (images : List String) :
    planActions f images = images.flatMap (imageActions f) := by
  induction images with
  | nil => rfl
  | cons image rest ih => simp [planActions, ih]

theorem string_append_left_cancel (a b c : String) (h : a ++ b = a ++ c) : b = c := by
  have h1 := congrArg String.data h
  simp only [String.data_append, List.append_cancel_left_eq] at h1
  exact String.ext h1

theorem imageActions_disjoint (f : Flags) (ref image : String) (e : Event)
    (h1 : e ∈ imageActions f ref) (h2 : e ∈ imageActions f image) : ref = image := by
  simp only [imageActions, List.mem_cons, List.mem_singleton, List.not_mem_nil, or_false] at h1 h2
  rcases h1 with rfl | rfl | rfl <;> rcases h2 with h | h | h <;> simp at h
  · exact h
  · exact h.1
  · exact string_append_left_cancel _ _ _ h

theorem ensureRepository_dry (w : World) (r : String) (s : St) :
    ensureRepository w r true s = .ok () s := by
  simp [ensureRepository]

/-- The three ways the repository creation can go in live mode. -/
theorem ensureRepository_live (w : World) (r : String) (s : St) :
    (w.createRepository s.trace r = none ∧
      ensureRepository w r false s = .ok () ⟨s.trace ++ [.createRepository r], s.log⟩)
    ∨ (w.createRepository s.trace r = some "RepositoryAlreadyExistsException" ∧
      ensureRepository w r false s
        = .ok () ⟨s.trace ++ [.createRepository r], s.log ++ ["repository " ++ r ++ " already exists"]⟩)
    ∨ (∃ e, w.createRepository s.trace r = some e ∧ e ≠ "RepositoryAlreadyExistsException" ∧
      ensureRepository w r false s
        = .fatal ("unable to create repository, " ++ e)
            ⟨s.trace ++ [.createRepository r], s.log ++ ["unable to create repository, " ++ e]⟩) := by
  cases h : w.createRepository s.trace r with
  | none =>
    left
    exact ⟨rfl, by simp [ensureRepository, call, h]⟩
  | some e =>
    right
    by_cases he : e = "RepositoryAlreadyExistsException"
    · left
      subst he
      exact ⟨rfl, by simp [ensureRepository, call, h, logPrint]⟩
    · right
      exact ⟨e, rfl, he, by simp [ensureRepository, call, h, logFatal, he]⟩

theorem pullAndPush_eq (w : World) (f : Flags) (r : String) (images : List String) (dry : Bool)
    (s : St) :
    pullAndPush w f r images dry s =
      match ensureRepository w r dry s with
      | .ok _ s1 => processImages w f dry images s1
      | .fatal msg s1 => .fatal msg s1
      | .crash s1 => .crash s1 := by
  simp only [pullAndPush, bind_run]
  cases ensureRepository w r dry s <;> rfl

theorem pullAndPush_dry_spec (w : World) (f : Flags) (r : String) (images : List String) (s : St) :
    (pullAndPush w f r images true s).state.trace = s.trace
    ∧ ((∃ i ∈ images, i.data.count ':' ≠ 1) → (pullAndPush w f r images true s).returned = false) := by
  rw [pullAndPush_eq, ensureRepository_dry]
  obtain ⟨t, rest, h1, _, h3, _, _, h6⟩ := processImages_spec w f true images s
  have ht : t = [] := h3 rfl
  subst ht
  exact ⟨by simpa using h1, h6⟩

/-- What `pullAndPush` does in live mode, in any world. -/
theorem pullAndPush_live_spec (w : World) (f : Flags) (r : String) (images : List String) (s : St) :
    ∃ t rest,
      (pullAndPush w f r images false s).state.trace = s.trace ++ t
      ∧ t ++ rest = .createRepository r :: planActions f images
      ∧ (∀ e ∈ t, e = .createRepository r
            ∨ ∃ ref ∈ images, ref.data.count ':' = 1 ∧ e ∈ imageActions f ref)
      ∧ FailFast w (!(pullAndPush w f r images false s).returned) s.trace t
      ∧ ((∃ i ∈ images, i.data.count ':' ≠ 1) →
          (pullAndPush w f r images false s).returned = false) := by
  rw [pullAndPush_eq]
  rcases ensureRepository_live w r s with ⟨hc, he⟩ | ⟨hc, he⟩ | ⟨e, hc, hne, he⟩
  · rw [he]
    obtain ⟨t, rest, h1, h2, _, h4, h5, h6⟩ :=
      processImages_spec w f false images ⟨s.trace ++ [.createRepository r], s.log⟩
    refine ⟨.createRepository r :: t, rest, by simpa using h1, by simp [h2], ?_, ?_, h6⟩
    · intro e he
      rcases List.mem_cons.1 he with he | he
      · exact Or.inl he
      · exact Or.inr (h4 e he)
    · exact ⟨by simp [failed, hc], h5⟩
  · rw [he]
    obtain ⟨t, rest, h1, h2, _, h4, h5, h6⟩ :=
      processImages_spec w f false images
        ⟨s.trace ++ [.createRepository r], s.log ++ ["repository " ++ r ++ " already exists"]⟩
    refine ⟨.createRepository r :: t, rest, by simpa using h1, by simp [h2], ?_, ?_, h6⟩
    · intro e he
      rcases List.mem_cons.1 he with he | he
      · exact Or.inl he
      · exact Or.inr (h4 e he)
    · exact ⟨by simp [failed, hc], h5⟩
  · rw [he]
    refine ⟨[.createRepository r], planActions f images, by simp [Res.state], by simp, by simp,
      ?_, by simp [Res.returned]⟩
    simp [FailFast, Res.returned]

/-! ## The root command -/

theorem checkVars_ok (f : Flags) (s : St) (h1 : f.awsRegion ≠ "") (h2 : f.awsAccountID ≠ "")
    (h3 : f.configFile ≠ "") : checkVars f s = .ok () s := by
  simp [checkVars, h1, h2, h3]

theorem checkVars_fatal (f : Flags) (s : St)
    (h : f.configFile = "" ∨ f.awsRegion = "" ∨ f.awsAccountID = "") :
    ∃ msg, checkVars f s = .fatal msg ⟨s.trace, s.log ++ [msg]⟩
      ∧ ((msg = "aws region is not set" ∧ f.awsRegion = "")
        ∨ (msg = "aws account id is not set" ∧ f.awsAccountID = "")
        ∨ (msg = "config file is not set" ∧ f.configFile = "")) := by
  by_cases h1 : f.awsRegion = ""
  · exact ⟨"aws region is not set", by simp [checkVars, h1, logFatal], Or.inl ⟨rfl, h1⟩⟩
  · by_cases h2 : f.awsAccountID = ""
    · exact ⟨"aws account id is not set", by simp [checkVars, h1, h2, logFatal], Or.inr (Or.inl ⟨rfl, h2⟩)⟩
    · have h3 : f.configFile = "" := by
        rcases h with h | h | h
        · exact h
        · exact absurd h h1
        · exact absurd h h2
      exact ⟨"config file is not set", by simp [checkVars, h1, h2, h3, logFatal],
        Or.inr (Or.inr ⟨rfl, h3⟩)⟩

/-- The part of `loginToEcr` that follows the decoding of the token. -/
theorem loginToEcr_decoded (w : World) (s : St) (first : AuthorizationData)
    (rest : List AuthorizationData) (enc tok : String)
    (hget : w.getAuthorizationToken = .ok (first :: rest))
    (henc : first.authorizationToken = some enc) (hdec : w.base64Decode enc = .ok tok) :
    loginToEcr w s =
      if tok.length = 0 then
        .fatal "empty auth token" ⟨s.trace ++ [.getAuthorizationToken], s.log ++ ["empty auth token"]⟩
      else
        match stringsSplit tok ':' with
        | [u, p] =>
          match first.proxyEndpoint with
          | none => .crash ⟨s.trace ++ [.getAuthorizationToken], s.log⟩
          | some ep =>
            match w.runDocker (s.trace ++ [.getAuthorizationToken]) ["login", "-u", u, "-p", p, ep] with
            | some e => .fatal ("unable to login to ecr, " ++ e)
                ⟨s.trace ++ [.getAuthorizationToken, .docker ["login", "-u", u, "-p", p, ep]],
                  s.log ++ ["unable to login to ecr, " ++ e]⟩
            | none => .ok ()
                ⟨s.trace ++ [.getAuthorizationToken, .docker ["login", "-u", u, "-p", p, ep]], s.log⟩
        | _ => .fatal "invalid auth token"
            ⟨s.trace ++ [.getAuthorizationToken], s.log ++ ["invalid auth token"]⟩ := by
  simp only [loginToEcr, call, bind_run, hget, henc, hdec]
  by_cases h0 : tok.length = 0
  · simp [h0, logFatal]
  · simp only [h0, if_false, pure_run]
    split
    · next u p hs =>
      cases hep : first.proxyEndpoint with
      | none => simp [goCrash]
      | some ep =>
        simp only [bind_run, call]
        cases hr : w.runDocker (s.trace ++ [.getAuthorizationToken]) ["login", "-u", u, "-p", p, ep] with
        | some e => simp [logFatal]
        | none => simp
    · simp [logFatal]

theorem setConfig_cases (w : World) (f : Flags) (s : St) :
    (∃ e, w.readFile f.configFile = .error e ∧
      setConfig w f s = .fatal ("unable to read config file, " ++ e)
        ⟨s.trace ++ [.readFile f.configFile],
          s.log ++ ["reading config " ++ f.configFile, "unable to read config file, " ++ e]⟩)
    ∨ (∃ b e, w.readFile f.configFile = .ok b ∧ w.yamlUnmarshal b = .error e ∧
      setConfig w f s = .fatal ("unable to unmarshal config file, " ++ e)
        ⟨s.trace ++ [.readFile f.configFile],
          s.log ++ ["reading config " ++ f.configFile, "unable to unmarshal config file, " ++ e]⟩)
    ∨ (∃ b cfg, w.readFile f.configFile = .ok b ∧ w.yamlUnmarshal b = .ok cfg ∧
      setConfig w f s = .ok cfg
        ⟨s.trace ++ [.readFile f.configFile],
          s.log ++ ["reading config " ++ f.configFile, "config: " ++ w.sprintConfig cfg]⟩) := by
  cases hr : w.readFile f.configFile with
  | error e =>
    left
    exact ⟨e, rfl, by simp [setConfig, logPrint, call, hr, logFatal]⟩
  | ok b =>
    right
    cases hy : w.yamlUnmarshal b with
    | error e =>
      left
      exact ⟨b, e, rfl, hy, by simp [setConfig, logPrint, call, hr, hy, logFatal]⟩
    | ok cfg =>
      right
      exact ⟨b, cfg, rfl, hy, by simp [setConfig, logPrint, call, hr, hy]⟩

theorem forRegistryMap_cons (w : World) (f : Flags) (r : String) (images : List String)
    (rest : List (String × List String)) (s : St) :
    forRegistryMap w f ((r, images) :: rest) s =
      match pullAndPush w f r images f.dryRun s with
      | .ok _ s1 => forRegistryMap w f rest s1
      | .fatal msg s1 => .fatal msg s1
      | .crash s1 => .crash s1 := by
  simp only [forRegistryMap, bind_run]
  cases pullAndPush w f r images f.dryRun s <;> rfl

theorem forRegistryMap_dry_trace (w : World) (f : Flags) (hdry : f.dryRun = true) :
    ∀ (plan : List (String × List String)) (s : St),
      (forRegistryMap w f plan s).state.trace = s.trace := by
  intro plan
  induction plan with
  | nil => intro s; rfl
  | cons entry rest ih =>
    intro s
    obtain ⟨r, images⟩ := entry
    rw [forRegistryMap_cons, hdry]
    have h := (pullAndPush_dry_spec w f r images s).1
    cases hp : pullAndPush w f r images true s with
    | ok a s1 =>
      rw [hp] at h
      simp only
      rw [ih s1]
      exact h
    | fatal msg s1 => rw [hp] at h; exact h
    | crash s1 => rw [hp] at h; exact h

/-- The root command, step by step. -/
theorem rootRun_eq (w : World) (f : Flags) (s : St) :
    rootRun w f s =
      match checkVars f s with
      | .ok _ s1 =>
        match (if f.dryRun = true then .ok () s1 else
            match getEcrClient w f s1 with
            | .ok _ s2 => loginToEcr w s2
            | .fatal msg s2 => .fatal msg s2
            | .crash s2 => .crash s2 : Res Unit) with
        | .ok _ s3 =>
          match setConfig w f s3 with
          | .ok cfg s4 => forRegistryMap w f cfg.registryMap s4
          | .fatal msg s4 => .fatal msg s4
          | .crash s4 => .crash s4
        | .fatal msg s3 => .fatal msg s3
        | .crash s3 => .crash s3
      | .fatal msg s1 => .fatal msg s1
      | .crash s1 => .crash s1 := by
  simp only [rootRun, bind_run]
  cases checkVars f s with
  | ok a s1 =>
    cases hd : f.dryRun with
    | true =>
      simp only [Bool.not_true, Bool.false_eq_true, if_false, pure_run, if_true, bind_run]
      cases setConfig w f s1 <;> rfl
    | false =>
      simp only [Bool.not_false, if_true, bind_run, Bool.false_eq_true, if_false]
      cases getEcrClient w f s1 with
      | ok a s2 =>
        simp only
        cases loginToEcr w s2 with
        | ok a s3 =>
          simp only
          cases setConfig w f s3 <;> rfl
        | fatal msg s3 => rfl
        | crash s3 => rfl
      | fatal msg s2 => rfl
      | crash s2 => rfl
  | fatal msg s1 => rfl
  | crash s1 => rfl

/-- C1: when one of the three required inputs (config file path, AWS region,
AWS account id) is the empty string, `checkVars`, and with it the whole run,
ends in a fatal error whose message names an input that is empty, with the
trace of external actions unchanged: the config file is not read, no
control-plane call is made and no `docker` subprocess is started.  When the
three inputs are non-empty, `checkVars` returns without any effect. -/
theorem rootRun_missing_input_aborts_first (w : World) (f : Flags) (s : St) :
    ((f.configFile = "" ∨ f.awsRegion = "" ∨ f.awsAccountID = "") →
      ∃ msg, checkVars f s = .fatal msg ⟨s.trace, s.log ++ [msg]⟩
        ∧ rootRun w f s = .fatal msg ⟨s.trace, s.log ++ [msg]⟩
        ∧ ((msg = "aws region is not set" ∧ f.awsRegion = "")
          ∨ (msg = "aws account id is not set" ∧ f.awsAccountID = "")
          ∨ (msg = "config file is not set" ∧ f.configFile = "")))
    ∧ ((f.configFile ≠ "" ∧ f.awsRegion ≠ "" ∧ f.awsAccountID ≠ "") →
        checkVars f s = .ok () s) := by
  constructor
  · intro h
    obtain ⟨msg, hc, hm⟩ := checkVars_fatal f s h
    exact ⟨msg, hc, by rw [rootRun_eq, hc], hm⟩
  · rintro ⟨h3, h1, h2⟩
    exact checkVars_ok f s h1 h2 h3

/-- C1 at a concrete input: the invocation `-c plan.yaml -r us-east-1` without
an account id, and the complete invocation. -/
theorem rootRun_missing_input_aborts_first_witness :
    (∃ msg, checkVars { exampleFlags with awsAccountID := "" } St.init = .fatal msg ⟨[], [] ++ [msg]⟩
        ∧ rootRun exampleWorld { exampleFlags with awsAccountID := "" } St.init
            = .fatal msg ⟨[], [] ++ [msg]⟩
        ∧ ((msg = "aws region is not set" ∧ "us-east-1" = "")
          ∨ (msg = "aws account id is not set" ∧ "" = "")
          ∨ (msg = "config file is not set" ∧ "plan.yaml" = "")))
    ∧ checkVars exampleFlags St.init = .ok () St.init :=
  ⟨(rootRun_missing_input_aborts_first exampleWorld { exampleFlags with awsAccountID := "" }
      St.init).1 (by decide),
   (rootRun_missing_input_aborts_first exampleWorld exampleFlags St.init).2 (by decide)⟩

/-- C4: in dry mode the only external action a run can perform is reading the
config file: the registry client is not constructed, `GetAuthorizationToken`
and `CreateRepository` are not called and no `docker` subprocess is started;
`pullAndPush` called in dry mode issues no action at all. -/
theorem dry_run_no_side_effect (w : World) (f : Flags) (s : St) (hdry : f.dryRun = true) :
    (∃ t, (rootRun w f s).state.trace = s.trace ++ t ∧ (t = [] ∨ t = [.readFile f.configFile]))
    ∧ ∀ r images, (pullAndPush w f r images true s).state.trace = s.trace := by
  refine ⟨?_, fun r images => (pullAndPush_dry_spec w f r images s).1⟩
  rw [rootRun_eq]
  by_cases hf : f.configFile = "" ∨ f.awsRegion = "" ∨ f.awsAccountID = ""
  · obtain ⟨msg, hc, _⟩ := checkVars_fatal f s hf
    rw [hc]
    exact ⟨[], by simp [Res.state], Or.inl rfl⟩
  · simp only [not_or] at hf
    rw [checkVars_ok f s hf.2.1 hf.2.2 hf.1]
    simp only [hdry, if_true]
    rcases setConfig_cases w f s with ⟨e, _, hs⟩ | ⟨b, e, _, _, hs⟩ | ⟨b, cfg, _, _, hs⟩
    · rw [hs]
      exact ⟨[.readFile f.configFile], rfl, Or.inr rfl⟩
    · rw [hs]
      exact ⟨[.readFile f.configFile], rfl, Or.inr rfl⟩
    · rw [hs]
      refine ⟨[.readFile f.configFile], ?_, Or.inr rfl⟩
      simp only
      rw [forRegistryMap_dry_trace w f hdry]

/-- C4 at a concrete input: the happy-path run with `-d`. -/
theorem dry_run_no_side_effect_witness :
    (∃ t, (rootRun exampleWorld { exampleFlags with dryRun := true } St.init).state.trace = [] ++ t
      ∧ (t = [] ∨ t = [.readFile "plan.yaml"]))
    ∧ ∀ r images,
        (pullAndPush exampleWorld { exampleFlags with dryRun := true } r images true St.init).state.trace
          = [] :=
  dry_run_no_side_effect exampleWorld { exampleFlags with dryRun := true } St.init rfl

/-- C7, against the claim: a decoded token whose password contains a colon,
`AWS:pa:ss`, splits at its first colon into the non-empty parts `AWS` and
`pa:ss`, yet `loginToEcr` ends in a fatal error without running `docker login`;
and the token `AWS:`, whose password is empty, is accepted. -/
theorem loginToEcr_token_counterexample :
    loginToEcr { exampleWorld with base64Decode := fun _ => .ok "AWS:pa:ss" } St.init
      = .fatal "invalid auth token" ⟨[.getAuthorizationToken], ["invalid auth token"]⟩
    ∧ loginToEcr { exampleWorld with base64Decode := fun _ => .ok "AWS:" } St.init
      = .ok () ⟨[ .getAuthorizationToken,
                  .docker ["login", "-u", "AWS", "-p", "",
                    "https://111122223333.dkr.ecr.us-east-1.amazonaws.com"] ], []⟩ := by
  decide

/-- C7, amended: `loginToEcr` accepts a decoded authorization token exactly
when it contains exactly one colon; it then passes the part before the colon as
the `docker login` user and the part after it as the password (either may be
empty).  Every other token (empty, no colon, two or more colons) is a fatal
error and `docker login` is not run. -/
theorem loginToEcr_token_one_colon (w : World) (s : St) (first : AuthorizationData)
    (rest : List AuthorizationData) (enc tok ep : String)
    (hget : w.getAuthorizationToken = .ok (first :: rest))
    (henc : first.authorizationToken = some enc) (hdec : w.base64Decode enc = .ok tok)
    (hep : first.proxyEndpoint = some ep) :
    (tok.data.count ':' = 1 →
      ∃ u p, tok = u ++ ":" ++ p
        ∧ (loginToEcr w s).state.trace
            = s.trace ++ [.getAuthorizationToken, .docker ["login", "-u", u, "-p", p, ep]])
    ∧ (tok.data.count ':' ≠ 1 →
      ∃ msg, (msg = "empty auth token" ∨ msg = "invalid auth token")
        ∧ loginToEcr w s = .fatal msg ⟨s.trace ++ [.getAuthorizationToken], s.log ++ [msg]⟩) := by
  rw [loginToEcr_decoded w s first rest enc tok hget henc hdec]
  constructor
  · intro h1
    obtain ⟨u, p, hs, htok, _, _⟩ := stringsSplit_of_count_one tok ':' h1
    refine ⟨u, p, htok, ?_⟩
    have hlen : tok.length ≠ 0 := by
      intro h0
      have hd : tok.data = [] := List.length_eq_zero.1 h0
      rw [hd] at h1
      simp at h1
    rw [if_neg hlen, hs]
    simp only [hep]
    split <;> rfl
  · intro h1
    by_cases hlen : tok.length = 0
    · rw [if_pos hlen]
      exact ⟨_, Or.inl rfl, rfl⟩
    · rw [if_neg hlen]
      split
      · next u p hs =>
        have hl := stringsSplit_length tok ':'
        rw [hs] at hl
        simp at hl
        exact absurd hl h1
      · exact ⟨_, Or.inr rfl, rfl⟩

/-- C7 amended, at a concrete input: the token `AWS:password`. -/
theorem loginToEcr_token_one_colon_witness :
    ("AWS:password".data.count ':' = 1 →
      ∃ u p, "AWS:password" = u ++ ":" ++ p
        ∧ (loginToEcr exampleWorld St.init).state.trace
            = [] ++ [.getAuthorizationToken, .docker ["login", "-u", u, "-p", p,
                "https://111122223333.dkr.ecr.us-east-1.amazonaws.com"]])
    ∧ ("AWS:password".data.count ':' ≠ 1 →
      ∃ msg, (msg = "empty auth token" ∨ msg = "invalid auth token")
        ∧ loginToEcr exampleWorld St.init
            = .fatal msg ⟨[] ++ [.getAuthorizationToken], [] ++ [msg]⟩) :=
  loginToEcr_token_one_colon exampleWorld St.init
    { authorizationToken := some "QVdTOnBhc3N3b3Jk",
      proxyEndpoint := some "https://111122223333.dkr.ecr.us-east-1.amazonaws.com" }
    [] "QVdTOnBhc3N3b3Jk" "AWS:password" "https://111122223333.dkr.ecr.us-east-1.amazonaws.com"
    rfl rfl rfl rfl

/-! ## Claims about `pullAndPush` -/

/-- C5, at the failing input: `CreateRepository` answers with an error whose
text contains `RepositoryAlreadyExistsException` without being equal to it, and
`pullAndPush` ends in a fatal error before any image is pulled. -/
theorem pullAndPush_already_exists_text_aborts :
    pullAndPush
        { exampleWorld with
          createRepository := fun _ _ =>
            some "operation error ECR: CreateRepository, StatusCode: 400, RepositoryAlreadyExistsException: The repository already exists" }
        exampleFlags "nginx" ["nginx:1.25"] false St.init
      = .fatal
          "unable to create repository, operation error ECR: CreateRepository, StatusCode: 400, RepositoryAlreadyExistsException: The repository already exists"
          ⟨[.createRepository "nginx"],
           ["unable to create repository, operation error ECR: CreateRepository, StatusCode: 400, RepositoryAlreadyExistsException: The repository already exists"]⟩ := by
  decide

/-- When the error text of `CreateRepository` is exactly
`RepositoryAlreadyExistsException`, `pullAndPush` logs it and continues as after
a successful creation; after any other error it aborts with `CreateRepository`
as its only action. -/
theorem pullAndPush_create_error (w : World) (f : Flags) (r : String) (images : List String)
    (s : St) (e : String) (he : w.createRepository s.trace r = some e) :
    (e = "RepositoryAlreadyExistsException" →
      pullAndPush w f r images false s
        = processImages w f false images
            ⟨s.trace ++ [.createRepository r], s.log ++ ["repository " ++ r ++ " already exists"]⟩)
    ∧ (e ≠ "RepositoryAlreadyExistsException" →
      pullAndPush w f r images false s
        = .fatal ("unable to create repository, " ++ e)
            ⟨s.trace ++ [.createRepository r], s.log ++ ["unable to create repository, " ++ e]⟩) := by
  rw [pullAndPush_eq]
  rcases ensureRepository_live w r s with ⟨hc, _⟩ | ⟨hc, hr⟩ | ⟨e2, hc, hne, hr⟩
  · rw [he] at hc
    cases hc
  · rw [he] at hc
    cases hc
    rw [hr]
    exact ⟨fun _ => rfl, fun h => absurd rfl h⟩
  · rw [he] at hc
    cases hc
    rw [hr]
    exact ⟨fun h => absurd h hne, fun _ => rfl⟩

/-- The tolerated error at a concrete input: `CreateRepository` answers with the
text `RepositoryAlreadyExistsException` itself and the image is still mirrored. -/
theorem pullAndPush_create_error_witness :
    pullAndPush
        { exampleWorld with
          createRepository := fun _ _ => some "RepositoryAlreadyExistsException" }
        exampleFlags "nginx" ["nginx:1.25"] false St.init
      = .ok ()
          ⟨[ .createRepository "nginx",
             .docker ["pull", "nginx:1.25"],
             .docker ["tag", "nginx:1.25", "111122223333.dkr.ecr.us-east-1.amazonaws.com/nginx:1.25"],
             .docker ["push", "111122223333.dkr.ecr.us-east-1.amazonaws.com/nginx:1.25"] ],
           [ "repository nginx already exists",
             "pulling image nginx:1.25 from docker hub",
             "tagging image nginx:1.25 with tag 111122223333.dkr.ecr.us-east-1.amazonaws.com/nginx:1.25",
             "pushing image 111122223333.dkr.ecr.us-east-1.amazonaws.com/nginx:1.25 to ecr" ]⟩ := by
  rw [(pullAndPush_create_error
    { exampleWorld with
      createRepository := fun _ _ => some "RepositoryAlreadyExistsException" }
    exampleFlags "nginx" ["nginx:1.25"] St.init "RepositoryAlreadyExistsException" rfl).1 rfl]
  decide

/-- C2: every `docker tag` and `docker push` that `pullAndPush` issues carries,
as tag target and as push argument, the string
`<account>.dkr.ecr.<region>.amazonaws.com/<ref>` for an image reference `ref` of
the list, with `ref` unchanged; and in a live run in which every call succeeds,
every reference with one colon gets its `docker tag` and its `docker push` with
that address. -/
theorem pullAndPush_destination_address (w : World) (f : Flags) (r : String)
    (images : List String) (dry : Bool) (s : St) :
    (∃ t, (pullAndPush w f r images dry s).state.trace = s.trace ++ t
      ∧ ∀ e ∈ t, e = .createRepository r ∨ ∃ ref ∈ images,
          e = .docker ["pull", ref]
          ∨ e = .docker ["tag", ref,
                f.awsAccountID ++ ".dkr.ecr." ++ f.awsRegion ++ ".amazonaws.com/" ++ ref]
          ∨ e = .docker ["push",
                f.awsAccountID ++ ".dkr.ecr." ++ f.awsRegion ++ ".amazonaws.com/" ++ ref])
    ∧ (dry = false → w.allSucceed → (∀ i ∈ images, i.data.count ':' = 1) →
        ∀ ref ∈ images,
          .docker ["tag", ref,
              f.awsAccountID ++ ".dkr.ecr." ++ f.awsRegion ++ ".amazonaws.com/" ++ ref]
            ∈ (pullAndPush w f r images dry s).state.trace
          ∧ .docker ["push",
              f.awsAccountID ++ ".dkr.ecr." ++ f.awsRegion ++ ".amazonaws.com/" ++ ref]
            ∈ (pullAndPush w f r images dry s).state.trace) := by
  constructor
  · cases dry with
    | true => exact ⟨[], by simpa using (pullAndPush_dry_spec w f r images s).1, by simp⟩
    | false =>
      obtain ⟨t, rest, h1, _, h3, _, _⟩ := pullAndPush_live_spec w f r images s
      refine ⟨t, h1, fun e he => ?_⟩
      rcases h3 e he with h | ⟨ref, hr, _, hm⟩
      · exact Or.inl h
      · refine Or.inr ⟨ref, hr, ?_⟩
        simpa [imageActions] using hm
  · intro hdry hw hwf ref href
    subst hdry
    have hrun : (pullAndPush w f r images false s).state.trace
        = s.trace ++ .createRepository r :: planActions f images := by
      rw [pullAndPush_eq]
      rcases ensureRepository_live w r s with ⟨_, he⟩ | ⟨hc, _⟩ | ⟨e, hc, _, _⟩
      · rw [he]
        simp only
        rw [processImages_live_ok w f hw images _ hwf]
        simp [Res.state]
      · rw [hw.1] at hc
        cases hc
      · rw [hw.1] at hc
        cases hc
    have hmem : ∀ e ∈ imageActions f ref, e ∈ (pullAndPush w f r images false s).state.trace := by
      intro e he
      rw [hrun, planActions_eq_flatMap]
      refine List.mem_append_right _ (List.mem_cons_of_mem _ ?_)
      exact List.mem_flatMap.2 ⟨ref, href, he⟩
    exact ⟨hmem _ (by simp [imageActions]), hmem _ (by simp [imageActions])⟩

/-- C2 at a concrete input: the image `nginx:1.25`, live and with every call succeeding. -/
theorem pullAndPush_destination_address_witness :
    .docker ["tag", "nginx:1.25",
        "111122223333" ++ ".dkr.ecr." ++ "us-east-1" ++ ".amazonaws.com/" ++ "nginx:1.25"]
      ∈ (pullAndPush exampleWorld exampleFlags "nginx" ["nginx:1.25"] false St.init).state.trace
    ∧ .docker ["push",
        "111122223333" ++ ".dkr.ecr." ++ "us-east-1" ++ ".amazonaws.com/" ++ "nginx:1.25"]
      ∈ (pullAndPush exampleWorld exampleFlags "nginx" ["nginx:1.25"] false St.init).state.trace :=
  (pullAndPush_destination_address exampleWorld exampleFlags "nginx" ["nginx:1.25"] false St.init).2
    rfl ⟨fun _ _ => rfl, fun _ _ => rfl⟩ (by decide) "nginx:1.25" (by decide)

/-- C6: in live mode, for a repository `r` and a list of image references with
exactly one colon each, when every call succeeds `pullAndPush` returns and the
actions it issued are exactly `CreateRepository(r)` followed, for each image in
list order (duplicates included), by `docker pull`, `docker tag` to the
destination address and `docker push` of the destination address; for the
empty list the only action is `CreateRepository(r)`. -/
theorem pullAndPush_live_sequence (w : World) (f : Flags) (r : String) (images : List String)
    (s : St) (hw : w.allSucceed) (hwf : ∀ i ∈ images, i.data.count ':' = 1) :
    (∃ lg, pullAndPush w f r images false s
      = .ok () ⟨s.trace ++ .createRepository r :: images.flatMap (fun image =>
            [ .docker ["pull", image],
              .docker ["tag", image,
                f.awsAccountID ++ ".dkr.ecr." ++ f.awsRegion ++ ".amazonaws.com/" ++ image],
              .docker ["push",
                f.awsAccountID ++ ".dkr.ecr." ++ f.awsRegion ++ ".amazonaws.com/" ++ image] ]), lg⟩)
    ∧ pullAndPush w f r [] false s = .ok () ⟨s.trace ++ [.createRepository r], s.log⟩ := by
  have hrun : ∀ imgs : List String, (∀ i ∈ imgs, i.data.count ':' = 1) →
      pullAndPush w f r imgs false s
        = .ok () ⟨s.trace ++ .createRepository r :: planActions f imgs,
            s.log ++ (planActions f imgs).map describe⟩ := by
    intro imgs himgs
    rw [pullAndPush_eq]
    rcases ensureRepository_live w r s with ⟨_, he⟩ | ⟨hc, _⟩ | ⟨e, hc, _, _⟩
    · rw [he]
      simp only
      rw [processImages_live_ok w f hw imgs _ himgs]
      simp
    · rw [hw.1] at hc
      cases hc
    · rw [hw.1] at hc
      cases hc
  constructor
  · refine ⟨s.log ++ (planActions f images).map describe, ?_⟩
    rw [hrun images hwf, planActions_eq_flatMap]
    rfl
  · rw [hrun [] (by simp)]
    simp [planActions]

/-- C6 at a concrete input: two tags of `alpine`, the second listed twice. -/
theorem pullAndPush_live_sequence_witness :
    (pullAndPush exampleWorld exampleFlags "alpine" ["alpine:3.18", "alpine:3.19", "alpine:3.19"]
        false St.init).state.trace
      = [ .createRepository "alpine",
          .docker ["pull", "alpine:3.18"],
          .docker ["tag", "alpine:3.18", "111122223333.dkr.ecr.us-east-1.amazonaws.com/alpine:3.18"],
          .docker ["push", "111122223333.dkr.ecr.us-east-1.amazonaws.com/alpine:3.18"],
          .docker ["pull", "alpine:3.19"],
          .docker ["tag", "alpine:3.19", "111122223333.dkr.ecr.us-east-1.amazonaws.com/alpine:3.19"],
          .docker ["push", "111122223333.dkr.ecr.us-east-1.amazonaws.com/alpine:3.19"],
          .docker ["pull", "alpine:3.19"],
          .docker ["tag", "alpine:3.19", "111122223333.dkr.ecr.us-east-1.amazonaws.com/alpine:3.19"],
          .docker ["push", "111122223333.dkr.ecr.us-east-1.amazonaws.com/alpine:3.19"] ] := by
  obtain ⟨lg, h⟩ := (pullAndPush_live_sequence exampleWorld exampleFlags "alpine"
    ["alpine:3.18", "alpine:3.19", "alpine:3.19"] St.init ⟨fun _ _ => rfl, fun _ _ => rfl⟩
    (by decide)).1
  rw [h]
  rfl

/-- C8: in live mode `pullAndPush` is fail-fast.  The actions it issues are an
initial part of the all-success sequence (`CreateRepository`, then pull, tag,
push per image in list order), and an action that failed (`CreateRepository`
with an error other than the tolerated one, a non-zero exit of `docker pull`,
`tag` or `push`) is the last action issued and the run did not return: nothing
is pulled, tagged or pushed after it. -/
theorem pullAndPush_fail_fast (w : World) (f : Flags) (r : String) (images : List String)
    (s : St) :
    ∃ t rest, (pullAndPush w f r images false s).state.trace = s.trace ++ t
      ∧ t ++ rest = .createRepository r :: planActions f images
      ∧ ∀ pre e post, t = pre ++ e :: post → failed w (s.trace ++ pre) e = true →
          post = [] ∧ (pullAndPush w f r images false s).returned = false := by
  obtain ⟨t, rest, h1, h2, _, h4, _⟩ := pullAndPush_live_spec w f r images s
  refine ⟨t, rest, h1, h2, fun pre e post ht hf => ?_⟩
  have h := failFast_split w _ t s.trace h4 pre e post ht hf
  exact ⟨h.1, by simpa using h.2⟩

/-- C8 at a concrete input: two images, and `docker tag` of the first one fails. -/
theorem pullAndPush_fail_fast_witness :
    pullAndPush
        { exampleWorld with
          runDocker := fun _ args => if args.head? = some "tag" then some "exit status 1" else none }
        exampleFlags "alpine" ["alpine:3.18", "alpine:3.19"] false St.init
      = .fatal "unable to tag image alpine:3.18, exit status 1"
          ⟨[ .createRepository "alpine",
             .docker ["pull", "alpine:3.18"],
             .docker ["tag", "alpine:3.18", "111122223333.dkr.ecr.us-east-1.amazonaws.com/alpine:3.18"] ],
           [ "pulling image alpine:3.18 from docker hub",
             "tagging image alpine:3.18 with tag 111122223333.dkr.ecr.us-east-1.amazonaws.com/alpine:3.18",
             "unable to tag image alpine:3.18, exit status 1" ]⟩
    ∧ ∃ t rest,
        (pullAndPush
          { exampleWorld with
            runDocker := fun _ args => if args.head? = some "tag" then some "exit status 1" else none }
          exampleFlags "alpine" ["alpine:3.18", "alpine:3.19"] false St.init).state.trace = [] ++ t
        ∧ t ++ rest = .createRepository "alpine" :: planActions exampleFlags ["alpine:3.18", "alpine:3.19"]
        ∧ ∀ pre e post, t = pre ++ e :: post →
            failed
              { exampleWorld with
                runDocker := fun _ args =>
                  if args.head? = some "tag" then some "exit status 1" else none }
              ([] ++ pre) e = true →
            post = [] ∧ (pullAndPush
              { exampleWorld with
                runDocker := fun _ args =>
                  if args.head? = some "tag" then some "exit status 1" else none }
              exampleFlags "alpine" ["alpine:3.18", "alpine:3.19"] false St.init).returned = false :=
  ⟨by decide,
   pullAndPush_fail_fast
    { exampleWorld with
      runDocker := fun _ args => if args.head? = some "tag" then some "exit status 1" else none }
    exampleFlags "alpine" ["alpine:3.18", "alpine:3.19"] St.init⟩

/-- C9: when every call succeeds, the lines `pullAndPush` logs in dry mode are
the lines it logs in live mode, in the same order, and the two runs end the
same way.  The lines are, in order, the announcements of the `docker pull`,
`tag` and `push` commands the live run issues after `CreateRepository`, each
naming the reference and the destination address its command receives,
followed, if the list holds a reference that is refused, by that one fatal line. -/
theorem pullAndPush_dry_log_matches_live (w : World) (f : Flags) (r : String)
    (images : List String) (s : St) (hw : w.allSucceed) :
    ∃ issued tail,
      (pullAndPush w f r images false s).state
        = ⟨s.trace ++ .createRepository r :: issued, s.log ++ issued.map describe ++ tail⟩
      ∧ (pullAndPush w f r images true s).state
        = ⟨s.trace, s.log ++ issued.map describe ++ tail⟩
      ∧ (pullAndPush w f r images false s).returned = (pullAndPush w f r images true s).returned
      ∧ (tail = [] ∨ ∃ image ∈ images, tail = ["invalid image tag " ++ image])
      ∧ ∀ e ∈ issued, ∃ ref ∈ images,
          e = .docker ["pull", ref]
          ∨ e = .docker ["tag", ref,
                f.awsAccountID ++ ".dkr.ecr." ++ f.awsRegion ++ ".amazonaws.com/" ++ ref]
          ∨ e = .docker ["push",
                f.awsAccountID ++ ".dkr.ecr." ++ f.awsRegion ++ ".amazonaws.com/" ++ ref] := by
  rw [pullAndPush_eq, pullAndPush_eq, ensureRepository_dry]
  rcases ensureRepository_live w r s with ⟨_, he⟩ | ⟨hc, _⟩ | ⟨e, hc, _, _⟩
  · rw [he]
    obtain ⟨issued, tail, h1, h2, h3, h4, h5⟩ :=
      processImages_modes w f hw images (s.trace ++ [.createRepository r]) s.trace s.log
    refine ⟨issued, tail, by simpa using h1, h2, h3, h4, fun e he => ?_⟩
    obtain ⟨ref, hr, hm⟩ := h5 e he
    exact ⟨ref, hr, by simpa [imageActions] using hm⟩
  · rw [hw.1] at hc
    cases hc
  · rw [hw.1] at hc
    cases hc

/-- C9 at a concrete input: the image `nginx:1.25`. -/
theorem pullAndPush_dry_log_matches_live_witness :
    (pullAndPush exampleWorld exampleFlags "nginx" ["nginx:1.25"] true St.init).state.log
      = (pullAndPush exampleWorld exampleFlags "nginx" ["nginx:1.25"] false St.init).state.log
    ∧ (pullAndPush exampleWorld exampleFlags "nginx" ["nginx:1.25"] true St.init).state.log
      = [ "pulling image nginx:1.25 from docker hub",
          "tagging image nginx:1.25 with tag 111122223333.dkr.ecr.us-east-1.amazonaws.com/nginx:1.25",
          "pushing image 111122223333.dkr.ecr.us-east-1.amazonaws.com/nginx:1.25 to ecr" ] := by
  obtain ⟨issued, tail, h1, h2, _⟩ := pullAndPush_dry_log_matches_live exampleWorld exampleFlags
    "nginx" ["nginx:1.25"] St.init ⟨fun _ _ => rfl, fun _ _ => rfl⟩
  refine ⟨by rw [h1, h2], by decide⟩

/-- C3, against the claim: the reference `nginx:` has an empty tag and the
reference `:latest` an empty name, so neither is of the form `name:tag` with two
non-empty parts, yet `pullAndPush` accepts both and pulls, tags and pushes them. -/
theorem pullAndPush_empty_part_counterexample :
    stringsSplit "nginx:" ':' = ["nginx", ""]
    ∧ stringsSplit ":latest" ':' = ["", "latest"]
    ∧ pullAndPush exampleWorld exampleFlags "nginx" ["nginx:", ":latest"] false St.init
      = .ok ()
          ⟨[ .createRepository "nginx",
             .docker ["pull", "nginx:"],
             .docker ["tag", "nginx:", "111122223333.dkr.ecr.us-east-1.amazonaws.com/nginx:"],
             .docker ["push", "111122223333.dkr.ecr.us-east-1.amazonaws.com/nginx:"],
             .docker ["pull", ":latest"],
             .docker ["tag", ":latest", "111122223333.dkr.ecr.us-east-1.amazonaws.com/:latest"],
             .docker ["push", "111122223333.dkr.ecr.us-east-1.amazonaws.com/:latest"] ],
           [ "pulling image nginx: from docker hub",
             "tagging image nginx: with tag 111122223333.dkr.ecr.us-east-1.amazonaws.com/nginx:",
             "pushing image 111122223333.dkr.ecr.us-east-1.amazonaws.com/nginx: to ecr",
             "pulling image :latest from docker hub",
             "tagging image :latest with tag 111122223333.dkr.ecr.us-east-1.amazonaws.com/:latest",
             "pushing image 111122223333.dkr.ecr.us-east-1.amazonaws.com/:latest to ecr" ]⟩ := by
  decide

/-- C3, amended: for an image reference of the list that does not contain
exactly one colon (none, or more than one), `pullAndPush` does not return, in
either mode and whatever the world answers, and issues no `docker pull`, `tag`
or `push` for that reference; when the references listed before it have one
colon each and the run is dry or every call succeeds, it ends in the fatal
error `invalid image tag <reference>`. -/
theorem pullAndPush_malformed_reference (w : World) (f : Flags) (r : String)
    (pre : List String) (image : String) (post : List String) (dry : Bool) (s : St)
    (hbad : image.data.count ':' ≠ 1) :
    (pullAndPush w f r (pre ++ image :: post) dry s).returned = false
    ∧ (∃ t, (pullAndPush w f r (pre ++ image :: post) dry s).state.trace = s.trace ++ t
        ∧ ∀ e ∈ t, e ≠ .docker ["pull", image]
          ∧ e ≠ .docker ["tag", image,
                  f.awsAccountID ++ ".dkr.ecr." ++ f.awsRegion ++ ".amazonaws.com/" ++ image]
          ∧ e ≠ .docker ["push",
                  f.awsAccountID ++ ".dkr.ecr." ++ f.awsRegion ++ ".amazonaws.com/" ++ image])
    ∧ ((∀ i ∈ pre, i.data.count ':' = 1) → (dry = true ∨ w.allSucceed) →
        ∃ tr, pullAndPush w f r (pre ++ image :: post) dry s
          = .fatal ("invalid image tag " ++ image)
              ⟨tr, s.log ++ (planActions f pre).map describe ++ ["invalid image tag " ++ image]⟩) := by
  have hex : ∃ i ∈ pre ++ image :: post, i.data.count ':' ≠ 1 := ⟨image, by simp, hbad⟩
  refine ⟨?_, ?_, ?_⟩
  · cases dry with
    | true => exact (pullAndPush_dry_spec w f r _ s).2 hex
    | false =>
      obtain ⟨_, _, _, _, _, _, h⟩ := pullAndPush_live_spec w f r (pre ++ image :: post) s
      exact h hex
  · cases dry with
    | true => exact ⟨[], by simpa using (pullAndPush_dry_spec w f r _ s).1, by simp⟩
    | false =>
      obtain ⟨t, _, h1, _, h3, _, _⟩ := pullAndPush_live_spec w f r (pre ++ image :: post) s
      refine ⟨t, h1, fun e he => ?_⟩
      rcases h3 e he with h | ⟨ref, _, hc, hm⟩
      · subst h
        simp
      · have hne : ref ≠ image := fun h => hbad (h ▸ hc)
        refine ⟨?_, ?_, ?_⟩ <;> intro h <;> subst h <;>
          exact hne (imageActions_disjoint f ref image _ hm (by simp [imageActions]))
  · intro hpre hmode
    rw [pullAndPush_eq]
    cases dry with
    | true =>
      rw [ensureRepository_dry]
      simp only
      rw [processImages_append, processImages_dry_ok w f pre s hpre]
      simp only
      rw [processImages_cons, processImage_bad w f true image _ hbad]
      exact ⟨_, rfl⟩
    | false =>
      have hw : w.allSucceed := by
        rcases hmode with h | h
        · cases h
        · exact h
      rcases ensureRepository_live w r s with ⟨_, he⟩ | ⟨hc, _⟩ | ⟨e, hc, _, _⟩
      · rw [he]
        simp only
        rw [processImages_append, processImages_live_ok w f hw pre _ hpre]
        simp only
        rw [processImages_cons, processImage_bad w f false image _ hbad]
        exact ⟨_, rfl⟩
      · rw [hw.1] at hc
        cases hc
      · rw [hw.1] at hc
        cases hc

/-- C3 amended, at a concrete input: the reference `nginx` (no tag) after a good
reference, and the reference `a:b:c` in dry mode. -/
theorem pullAndPush_malformed_reference_witness :
    (pullAndPush exampleWorld exampleFlags "nginx" (["nginx:1.25"] ++ "nginx" :: ["nginx:1.24"])
        false St.init).returned = false
    ∧ (∃ tr, pullAndPush exampleWorld exampleFlags "nginx"
          (["nginx:1.25"] ++ "nginx" :: ["nginx:1.24"]) false St.init
        = .fatal ("invalid image tag " ++ "nginx")
            ⟨tr, [] ++ (planActions exampleFlags ["nginx:1.25"]).map describe
              ++ ["invalid image tag " ++ "nginx"]⟩)
    ∧ (pullAndPush exampleWorld exampleFlags "r" ([] ++ "a:b:c" :: []) true St.init).returned = false :=
  ⟨(pullAndPush_malformed_reference exampleWorld exampleFlags "nginx" ["nginx:1.25"] "nginx"
      ["nginx:1.24"] false St.init (by decide)).1,
   (pullAndPush_malformed_reference exampleWorld exampleFlags "nginx" ["nginx:1.25"] "nginx"
      ["nginx:1.24"] false St.init (by decide)).2.2 (by decide)
      (Or.inr ⟨fun _ _ => rfl, fun _ _ => rfl⟩),
   (pullAndPush_malformed_reference exampleWorld exampleFlags "r" [] "a:b:c" [] true St.init
      (by decide)).1⟩

end Dh2ecr
